import Mathlib

/-!
Verification of the heat-index alert script `Alarma_sensacion_termica_Github.py`.

Shallow embedding conventions:
* A naive Python `datetime` is represented by the integer count of microseconds
  since 0001-01-01 00:00:00 (Python's proleptic-Gregorian ordinal scale, where
  `toordinal() = 1` for 0001-01-01).  Python `//` is `Int.fdiv`, Python `%` with
  a positive modulus is `Int.emod`.
* Loosely typed JSON / Python values appearing in record fields are modelled by
  `PyVal`; a missing dictionary key and a JSON `null` both become `PyVal.none`,
  exactly as `dict.get` returns `None` in both cases.
* Python floats are modelled by `ℚ`.
* The all-`None` 5-tuple returned by `pick_heatindex_record` when nothing
  matches is modelled by `Option.none`.
-/

/-- Loosely typed Python/JSON value as it can appear in an API record field. -/
inductive PyVal where
  | none
  | bool (b : Bool)
  | num (q : ℚ)
  | str (s : String)
  | other
deriving DecidableEq

/-- One raw API record (a Python dict); `fieldname = PyVal.none` models both a
missing key and an explicit `null`, matching `rec.get(key)`. -/
structure Rec where
  fecha : PyVal
  indice_calor : PyVal
  temperatura : PyVal
deriving DecidableEq

/-- Numeric value of a list of ASCII digits, most significant first. -/
def digitsVal (cs : List Char) : Nat :=
  cs.foldl (fun a c => a * 10 + (c.toNat - 48)) 0

/-- Whitespace as matched by the `\s` class in `strptime`'s regex (ASCII part). -/
def isPySpace (c : Char) : Bool :=
  c = ' ' ∨ c = '\t' ∨ c = '\n' ∨ c = '\r' ∨ c = '\x0b' ∨ c = '\x0c'

/-- Models the Python builtin `float(s)` on plain decimal string literals:
optional surrounding whitespace, optional sign, digits with an optional
fractional part.  (Exponents, `inf`/`nan` and underscore separators are not
modelled; no claim depends on them.) -/
def pyFloatOfString (s : String) : Option ℚ :=
  let cs0 := s.toList.dropWhile isPySpace
  let cs1 := (cs0.reverse.dropWhile isPySpace).reverse
  let sgncs : ℚ × List Char :=
    match cs1 with
    | '-' :: rest => (-1, rest)
    | '+' :: rest => (1, rest)
    | _ => (1, cs1)
  let ipr := sgncs.2.span Char.isDigit
  match ipr.2 with
  | [] =>
      if ipr.1.isEmpty then Option.none
      else some (sgncs.1 * (digitsVal ipr.1 : ℚ))
  | '.' :: r2 =>
      let fpr := r2.span Char.isDigit
      if fpr.2.isEmpty ∧ ¬(ipr.1.isEmpty ∧ fpr.1.isEmpty) then
        some (sgncs.1 * ((digitsVal ipr.1 : ℚ) + (digitsVal fpr.1 : ℚ) / (10 ^ fpr.1.length : ℚ)))
      else Option.none
  | _ => Option.none

/-- `safe_float` from the source: `None` stays `None`, otherwise `float(x)`
with any exception caught and turned into `None`.  `float` succeeds on bools,
numbers and numeric strings; lists/dicts raise `TypeError`. -/
def safe_float (x : PyVal) : Option ℚ :=
  match x with
  | PyVal.none => Option.none
  | PyVal.bool b => some (if b then 1 else 0)
  | PyVal.num q => some q
  | PyVal.str s => pyFloatOfString s
  | PyVal.other => Option.none

/-- Python leap-year rule. -/
def isLeap (y : Nat) : Bool :=
  y % 4 = 0 ∧ (y % 100 ≠ 0 ∨ y % 400 = 0)

/-- Length of month `m` of year `y` (months 1..12). -/
def daysInMonth (y m : Nat) : Nat :=
  if m = 2 then (if isLeap y then 29 else 28)
  else if m = 4 ∨ m = 6 ∨ m = 9 ∨ m = 11 then 30
  else 31

/-- Days in the years strictly before year `y` (proleptic Gregorian). -/
def daysBeforeYear (y : Nat) : Nat :=
  365 * (y - 1) + (y - 1) / 4 - (y - 1) / 100 + (y - 1) / 400

/-- Cumulative day count before month `m` in a non-leap year. -/
def cumDaysBeforeMonth (m : Nat) : Nat :=
  match m with
  | 1 => 0 | 2 => 31 | 3 => 59 | 4 => 90 | 5 => 120 | 6 => 151
  | 7 => 181 | 8 => 212 | 9 => 243 | 10 => 273 | 11 => 304 | _ => 334

/-- Days in year `y` strictly before month `m`. -/
def daysBeforeMonth (y m : Nat) : Nat :=
  cumDaysBeforeMonth m + (if 2 < m ∧ isLeap y then 1 else 0)

/-- Microsecond timestamp of the datetime `y-mo-da ho:mi:se` (microsecond 0),
i.e. the embedding of `datetime(y, mo, da, ho, mi, se)`. -/
def mkDateTime (y mo da ho mi se : Nat) : Int :=
  (((daysBeforeYear y + daysBeforeMonth y mo + (da - 1)) * 86400
      + ho * 3600 + mi * 60 + se : Nat) : Int) * 1000000

def usPerSecond : Int := 1000000
def usPerMinute : Int := 60000000
def usPerHour : Int := 3600000000

/-- The `minute` field of a datetime in the microsecond representation. -/
def dtMinute (t : Int) : Int := (t.fdiv usPerMinute).emod 60

/-- The `second` field of a datetime in the microsecond representation. -/
def dtSecond (t : Int) : Int := (t.fdiv usPerSecond).emod 60

/-- The `microsecond` field of a datetime in the microsecond representation. -/
def dtMicrosecond (t : Int) : Int := t.emod usPerSecond

/-- Timestamp of the same datetime with minute, second and microsecond zeroed:
what `dt.replace(minute=0, second=0, microsecond=0)` keeps (year..hour). -/
def startOfHour (t : Int) : Int := t - t.emod usPerHour

/-- Exactly-two-digits-or-one field parse following `strptime`'s regex
semantics for `%m`, `%d`, `%H`, `%M`, `%S`: a maximal run of one or two digits
whose value lies in `[lo, hi]` (a run of three or more digits can never be
followed by the required literal separator, so it fails). -/
def parseNumField (cs : List Char) (lo hi : Nat) : Option (Nat × List Char) :=
  let p := cs.span Char.isDigit
  if (p.1.length = 1 ∨ p.1.length = 2) ∧ lo ≤ digitsVal p.1 ∧ digitsVal p.1 ≤ hi then
    some (digitsVal p.1, p.2)
  else Option.none

/-- Consume one expected literal character. -/
def expectChar (c : Char) (cs : List Char) : Option (List Char) :=
  match cs with
  | c2 :: rest => if c2 = c then some rest else Option.none
  | [] => Option.none

/-- Consume one or more whitespace characters (a literal blank in a `strptime`
format string matches the regex `\s+`). -/
def expectSpaces (cs : List Char) : Option (List Char) :=
  match cs with
  | c :: rest => if isPySpace c then some (rest.dropWhile isPySpace) else Option.none
  | [] => Option.none

/-- `parse_api_dt` from the source: `datetime.strptime(s, "%Y-%m-%d %H:%M:%S")`
with any exception turned into `None`.  `%Y` is exactly four digits; the regex
admits seconds 60 and 61 but the `datetime` constructor then rejects them, and
it also rejects year 0 and days beyond the month length — all yielding `None`. -/
def parse_api_dt (s : String) : Option Int := do
  let yp := s.toList.span Char.isDigit
  guard (yp.1.length = 4)
  let r1 ← expectChar '-' yp.2
  let mop ← parseNumField r1 1 12
  let r3 ← expectChar '-' mop.2
  let dap ← parseNumField r3 1 31
  let r5 ← expectSpaces dap.2
  let hop ← parseNumField r5 0 23
  let r7 ← expectChar ':' hop.2
  let mip ← parseNumField r7 0 59
  let r9 ← expectChar ':' mip.2
  let sep ← parseNumField r9 0 61
  guard sep.2.isEmpty
  let y := digitsVal yp.1
  guard (1 ≤ y ∧ dap.1 ≤ daysInMonth y mop.1 ∧ sep.1 ≤ 59)
  pure (mkDateTime y mop.1 dap.1 hop.1 mip.1 sep.1)

/-- `floor_to_slot` from the source:
`m = (dt.minute // slot_minutes) * slot_minutes`,
then `dt.replace(minute=m, second=0, microsecond=0)`. -/
def floor_to_slot (t : Int) (slot_minutes : Int) : Int :=
  let m := (dtMinute t).fdiv slot_minutes * slot_minutes
  startOfHour t + m * usPerMinute

/-- The `while mins <= max_age_min` loop of `build_slots`: appends
`base_slot - timedelta(minutes=mins)` and steps `mins` by `slot_minutes`.
The positivity proof argument is the loop's termination condition (for
`slot_minutes <= 0` the Python loop would not terminate). -/
def build_slots_loop (base slot_minutes max_age_min : Int) (hpos : 0 < slot_minutes)
    (mins : Int) : List Int :=
  if _h : mins ≤ max_age_min then
    (base - mins * usPerMinute) ::
      build_slots_loop base slot_minutes max_age_min hpos (mins + slot_minutes)
  else []
termination_by (max_age_min - mins + slot_minutes).toNat
decreasing_by
  omega

/-- `build_slots` from the source: the slot list (newest first) and the base
slot `floor_to_slot(now_local, slot_minutes)`. -/
def build_slots (now_local : Int) (slot_minutes max_age_min : Int)
    (hpos : 0 < slot_minutes) : List Int × Int :=
  let base_slot := floor_to_slot now_local slot_minutes
  (build_slots_loop base_slot slot_minutes max_age_min hpos 0, base_slot)

/-- The value stored in the `by_slot` dict for a kept record:
`(rec, hi_val, t_val, dt)`. -/
abbrev Entry := Rec × ℚ × Option ℚ × Int

/-- The body of the first loop of `pick_heatindex_record` for one record:
`None` when the record is discarded (non-string or unparseable `fecha`, or
`indice_calor` not coercible), otherwise the slot key and dict entry. -/
def record_entry (slot_minutes : Int) (r : Rec) : Option (Int × Entry) :=
  match r.fecha with
  | PyVal.str fecha =>
      match parse_api_dt fecha with
      | some dt =>
          let rec_slot := floor_to_slot dt slot_minutes
          match safe_float r.indice_calor with
          | some hi_val => some (rec_slot, (r, hi_val, safe_float r.temperatura, dt))
          | Option.none => Option.none
      | Option.none => Option.none
  | _ => Option.none

/-- One `by_slot[rec_slot] = ...` assignment.  The dict is modelled as an
association list where insertion prepends and lookup takes the first match,
so the last-inserted binding for a key wins, as in a Python dict. -/
def by_slot_step (slot_minutes : Int) (m : List (Int × Entry)) (r : Rec) :
    List (Int × Entry) :=
  match record_entry slot_minutes r with
  | some (s, e) => (s, e) :: m
  | Option.none => m

/-- The `by_slot` dict built by the first loop of `pick_heatindex_record`. -/
def build_by_slot (slot_minutes : Int) (records : List Rec) : List (Int × Entry) :=
  records.foldl (by_slot_step slot_minutes) []

/-- Lookup in the modelled dict (`slot in by_slot` / `by_slot[slot]`). -/
def dictGet (m : List (Int × Entry)) (k : Int) : Option Entry :=
  (List.find? (fun p => p.1 == k) m).map Prod.snd

/-- The second loop of `pick_heatindex_record`: walk `slots` newest → oldest
and return the first hit as `(rec, hi_val, t_val, dt_api, slot)`. -/
def pick_loop (by_slot : List (Int × Entry)) (slots : List Int) :
    Option (Rec × ℚ × Option ℚ × Int × Int) :=
  match slots with
  | [] => Option.none
  | slot :: rest =>
      match dictGet by_slot slot with
      | some (r, hi_val, t_val, dt_api) => some (r, hi_val, t_val, dt_api, slot)
      | Option.none => pick_loop by_slot rest

/-- `pick_heatindex_record` from the source; `Option.none` models the
`(None, None, None, None, None)` result. -/
def pick_heatindex_record (records : List Rec) (slots : List Int)
    (slot_minutes : Int) : Option (Rec × ℚ × Option ℚ × Int × Int) :=
  pick_loop (build_by_slot slot_minutes records) slots

/-- A value stored under a station-id key of the per-station response dict:
either a list of records or something that is not a list. -/
inductive DVal where
  | list (rs : List Rec)
  | nonlist
deriving DecidableEq

/-- The parsed JSON body of the per-station readings response: a dict, a flat
list, or any other top-level shape. -/
inductive Resp where
  | dict (m : List (String × DVal))
  | list (rs : List Rec)
  | other
deriving DecidableEq

/-- The response-shape handling of `get_station_records` (after the HTTP call):
`data.get(str(estacionid), [])` on a dict with a non-list value degraded to
`[]`, a flat list returned as-is, anything else `[]`.  Total — no shape
raises. -/
def get_station_records (data : Resp) (estacionid : String) : List Rec :=
  match data with
  | Resp.dict m =>
      match List.find? (fun p => p.1 == estacionid) m with
      | some (_, DVal.list rs) => rs
      | some (_, DVal.nonlist) => []
      | Option.none => []
  | Resp.list rs => rs
  | Resp.other => []

/-- A located station; only the fields the modelled control flow reads.
`estacionid` keeps its loose Python type because the code tests its
truthiness (`if not estacionid: continue`). -/
structure Station where
  estacionid : PyVal
deriving DecidableEq

/-- Python truthiness for the modelled values. -/
def pyTruthy (v : PyVal) : Bool :=
  match v with
  | PyVal.none => false
  | PyVal.bool b => b
  | PyVal.num q => q ≠ 0
  | PyVal.str s => ¬ s.isEmpty
  | PyVal.other => true

/-- Outcome of the station loop in `main`: the `chosen` tuple
`(sta, rec, hi_val, t_val, dt_api, slot_used, age_min)` or `None`. -/
inductive RunResult where
  | noChosen
  | chosen (sta : Station) (r : Rec) (hi_val : ℚ) (t_val : Option ℚ)
      (dt_api slot_used : Int) (age_min : ℚ)
deriving DecidableEq

/-- The `for sta in estaciones[:3]` body of `main`, applied to an explicit
station list; `fetch sta` models `get_station_records` for that station's id
(the composition of the HTTP call and the shape handling).
`age_min = (now_local - dt_api).total_seconds() / 60.0`, with timestamps in
microseconds. -/
def try_station_loop (fetch : Station → List Rec) (slots : List Int)
    (slot_minutes now_local : Int) : List Station → RunResult
  | [] => RunResult.noChosen
  | sta :: rest =>
      if pyTruthy sta.estacionid then
        let records := fetch sta
        if records.isEmpty then try_station_loop fetch slots slot_minutes now_local rest
        else
          match pick_heatindex_record records slots slot_minutes with
          | some (r, hi_val, t_val, dt_api, slot_used) =>
              RunResult.chosen sta r hi_val t_val dt_api slot_used
                (((now_local - dt_api : Int) : ℚ) / 60000000)
          | Option.none => try_station_loop fetch slots slot_minutes now_local rest
      else try_station_loop fetch slots slot_minutes now_local rest

/-- The orchestration step of `main`: try at most the first three stations in
the locator's order (`estaciones[:3]`). -/
def orchestrate (estaciones : List Station) (fetch : Station → List Rec)
    (slots : List Int) (slot_minutes now_local : Int) : RunResult :=
  try_station_loop fetch slots slot_minutes now_local (estaciones.take 3)

/-- The decision tail of `main` after the station loop: exit code and whether
a Telegram message is sent.  `no chosen` and both suppressions print an INFO
line and return 0 without notifying; otherwise the alert is sent and 0 is
returned. -/
def main_post (res : RunResult) (suppress_if_older_than_min heat_index_threshold : ℚ) :
    Nat × Bool :=
  match res with
  | RunResult.noChosen => (0, false)
  | RunResult.chosen _ _ hi_val _ _ _ age_min =>
      if age_min > suppress_if_older_than_min then (0, false)
      else if hi_val ≤ heat_index_threshold then (0, false)
      else (0, true)

/-! Concrete sample data used by the witness theorems. -/

def wSlotT : Int := mkDateTime 2024 1 1 10 30 0
def wRecMid : Rec := ⟨PyVal.str "2024-01-01 10:16:00", PyVal.num 12, PyVal.none⟩
def wRecOld : Rec := ⟨PyVal.str "2024-01-01 10:05:00", PyVal.num 7, PyVal.num 30⟩

def w2First : Rec := ⟨PyVal.str "2024-01-01 10:14:00", PyVal.num 20, PyVal.none⟩
def w2Second : Rec := ⟨PyVal.str "2024-01-01 10:01:00", PyVal.num 5, PyVal.none⟩

def w3Bad : Rec := ⟨PyVal.num 5, PyVal.num 1, PyVal.none⟩

def w4NoHi : Rec := ⟨PyVal.str "2024-01-01 10:16:00", PyVal.none, PyVal.num 30⟩
def w4BadTemp : Rec := ⟨PyVal.str "2024-01-01 10:16:00", PyVal.num 12, PyVal.str "xx"⟩

def wSta1 : Station := ⟨PyVal.str "7"⟩
def wSta2 : Station := ⟨PyVal.str "8"⟩
def w8Rec : Rec := ⟨PyVal.str "2024-03-05 08:03:00", PyVal.num 11, PyVal.none⟩
def w8Fetch : Station → List Rec := fun sta => if sta = wSta2 then [w8Rec] else []
def w8Slot : Int := mkDateTime 2024 3 5 8 0 0
def w8Dt : Int := mkDateTime 2024 3 5 8 3 0
def w8Now : Int := mkDateTime 2024 3 5 8 20 0

def w9Rec : Rec := ⟨PyVal.none, PyVal.none, PyVal.none⟩

def w10Rec : Rec := ⟨PyVal.str "2024-06-10 14:44:00", PyVal.num 33, PyVal.num 31⟩
def w10Slot : Int := mkDateTime 2024 6 10 14 30 0
def w10Dt : Int := mkDateTime 2024 6 10 14 44 0

/-! Helper lemmas about the modelled dict and the selector loops. -/

theorem dictGet_cons (s k : Int) (e : Entry) (m : List (Int × Entry)) :
    dictGet ((s, e) :: m) k = if s = k then some e else dictGet m k := by
  by_cases h : s = k
  · subst h; simp [dictGet, List.find?_cons_of_pos]
  · simp [dictGet, List.find?_cons_of_neg, h]

theorem pick_loop_eq_none (m : List (Int × Entry)) (slots : List Int)
    (h : ∀ s ∈ slots, dictGet m s = Option.none) :
    pick_loop m slots = Option.none := by
  induction slots with
  | nil => rfl
  | cons s rest ih =>
    have hs := h s (by simp)
    simp only [pick_loop, hs]
    exact ih (fun x hx => h x (by simp [hx]))

theorem pick_loop_first (m : List (Int × Entry)) (pre post : List Int) (s : Int) (e : Entry)
    (hpre : ∀ x ∈ pre, dictGet m x = Option.none) (hs : dictGet m s = some e) :
    pick_loop m (pre ++ s :: post) = some (e.1, e.2.1, e.2.2.1, e.2.2.2, s) := by
  obtain ⟨r, hi, t, dt⟩ := e
  induction pre with
  | nil => simp only [List.nil_append, pick_loop, hs]
  | cons x xs ih =>
    have hx := hpre x (by simp)
    simp only [List.cons_append, pick_loop, hx]
    exact ih (fun y hy => hpre y (by simp [hy]))

/-- C1: for every slot grid (newest first) and record set, `pick_heatindex_record`
returns the entry of the first grid slot present in the slot-to-record mapping,
and `none` (the all-`None` tuple) when no grid slot is present. -/
theorem claim_C1 (records : List Rec) (slots : List Int) (sm : Int) :
    ((∀ s ∈ slots, dictGet (build_by_slot sm records) s = Option.none) →
        pick_heatindex_record records slots sm = Option.none)
  ∧ (∀ (pre post : List Int) (s : Int) (e : Entry),
        slots = pre ++ s :: post →
        (∀ x ∈ pre, dictGet (build_by_slot sm records) x = Option.none) →
        dictGet (build_by_slot sm records) s = some e →
        pick_heatindex_record records slots sm =
          some (e.1, e.2.1, e.2.2.1, e.2.2.2, s)) := by
  constructor
  · intro h
    exact pick_loop_eq_none _ _ h
  · intro pre post s e hsl hpre hs
    subst hsl
    exact pick_loop_first _ _ _ _ _ hpre hs

/-- Witness for C1: grid `[T, T-15, T-30]` with records aligning to `T-15`
(taken at 10:16) and `T-30` (taken at 10:05) but not `T` yields the `T-15`
record. -/
theorem claim_C1_witness :
    pick_heatindex_record [wRecOld, wRecMid]
        [wSlotT, wSlotT - 15 * usPerMinute, wSlotT - 30 * usPerMinute] 15 =
      some (wRecMid, 12, Option.none, mkDateTime 2024 1 1 10 16 0,
        wSlotT - 15 * usPerMinute) := by
  have h := (claim_C1 [wRecOld, wRecMid]
      [wSlotT, wSlotT - 15 * usPerMinute, wSlotT - 30 * usPerMinute] 15).2
    [wSlotT] [wSlotT - 30 * usPerMinute] (wSlotT - 15 * usPerMinute)
    (wRecMid, 12, Option.none, mkDateTime 2024 1 1 10 16 0)
    (by decide) ?_ ?_
  · exact h
  · intro x hx
    have hxe : x = wSlotT := by
      simpa using hx
    subst hxe
    decide
  · decide

/-- Helper for C2: folding records none of which map to slot `s` leaves the
lookup at `s` unchanged. -/
theorem foldl_by_slot_no_hit (sm : Int) (l : List Rec) (s : Int)
    (h : ∀ r ∈ l, ∀ e, record_entry sm r ≠ some (s, e)) :
    ∀ acc, dictGet (List.foldl (by_slot_step sm) acc l) s = dictGet acc s := by
  induction l with
  | nil => intro acc; rfl
  | cons r rest ih =>
    intro acc
    have hr := h r (by simp)
    simp only [List.foldl_cons]
    rw [ih (fun x hx e => h x (by simp [hx]) e)]
    unfold by_slot_step
    cases hre : record_entry sm r with
    | none => rfl
    | some p =>
      obtain ⟨k, e⟩ := p
      have hk : k ≠ s := by
        intro hk
        exact hr e (by rw [hre, hk])
      rw [dictGet_cons]
      simp [hk]

/-- C2: when several surviving records truncate to the same slot, the one
latest in input order is retained in the mapping and returned by a selection
at that slot, regardless of its timestamp value. -/
theorem claim_C2 (sm : Int) (l₁ l₂ : List Rec) (r : Rec) (s : Int) (e : Entry)
    (rest : List Int)
    (hr : record_entry sm r = some (s, e))
    (hl₂ : ∀ r₂ ∈ l₂, ∀ e₂, record_entry sm r₂ ≠ some (s, e₂)) :
    dictGet (build_by_slot sm (l₁ ++ r :: l₂)) s = some e ∧
    pick_heatindex_record (l₁ ++ r :: l₂) (s :: rest) sm =
      some (e.1, e.2.1, e.2.2.1, e.2.2.2, s) := by
  have hget : dictGet (build_by_slot sm (l₁ ++ r :: l₂)) s = some e := by
    unfold build_by_slot
    rw [List.foldl_append, List.foldl_cons]
    rw [foldl_by_slot_no_hit sm l₂ s hl₂]
    unfold by_slot_step
    rw [hr, dictGet_cons]
    simp
  refine ⟨hget, ?_⟩
  obtain ⟨rr, hi, t, dt⟩ := e
  unfold pick_heatindex_record
  simp only [pick_loop]
  rw [show dictGet (build_by_slot sm (l₁ ++ r :: l₂)) s = some (rr, hi, t, dt) from hget]

/-- Witness for C2: two records in the same 15-minute slot (10:00); the
second-processed record is retained even though its timestamp (10:01) is
older than the first's (10:14). -/
theorem claim_C2_witness :
    dictGet (build_by_slot 15 [w2First, w2Second]) (mkDateTime 2024 1 1 10 0 0) =
        some (w2Second, 5, Option.none, mkDateTime 2024 1 1 10 1 0) ∧
    pick_heatindex_record [w2First, w2Second] [mkDateTime 2024 1 1 10 0 0] 15 =
        some (w2Second, 5, Option.none, mkDateTime 2024 1 1 10 1 0,
          mkDateTime 2024 1 1 10 0 0) := by
  have h := claim_C2 15 [w2First] [] w2Second (mkDateTime 2024 1 1 10 0 0)
    (w2Second, 5, Option.none, mkDateTime 2024 1 1 10 1 0) [] (by decide) (by simp)
  exact h

/-- C3: records whose timestamp field is missing, not a string, or fails the
exact `YYYY-MM-DD HH:MM:SS` format contribute nothing (and the selection is
as if they were absent); `"2024/01/01 10:00:00"` is rejected while
`"2024-01-01 10:00:00"` is accepted.  Discarding is a total function of the
record — no error is raised. -/
theorem claim_C3 :
    (∀ (sm : Int) (r : Rec), (∀ s, r.fecha ≠ PyVal.str s) →
        record_entry sm r = Option.none)
  ∧ (∀ (sm : Int) (r : Rec) (s : String), r.fecha = PyVal.str s →
        parse_api_dt s = Option.none → record_entry sm r = Option.none)
  ∧ (∀ (sm : Int) (r : Rec) (l₁ l₂ : List Rec) (slots : List Int),
        record_entry sm r = Option.none →
        pick_heatindex_record (l₁ ++ r :: l₂) slots sm =
          pick_heatindex_record (l₁ ++ l₂) slots sm)
  ∧ parse_api_dt "2024/01/01 10:00:00" = Option.none
  ∧ (parse_api_dt "2024-01-01 10:00:00").isSome = true := by
  refine ⟨?_, ?_, ?_, by decide, by decide⟩
  · intro sm r h
    cases hf : r.fecha with
    | str s => exact absurd hf (h s)
    | none => simp [record_entry, hf]
    | bool b => simp [record_entry, hf]
    | num q => simp [record_entry, hf]
    | other => simp [record_entry, hf]
  · intro sm r s hf hp
    simp [record_entry, hf, hp]
  · intro sm r l₁ l₂ slots hre
    unfold pick_heatindex_record build_by_slot
    rw [List.foldl_append, List.foldl_append, List.foldl_cons]
    congr 2
    unfold by_slot_step
    rw [hre]

/-- Witness for C3: a record with a numeric (non-string) timestamp field is
discarded and leaves the selection unchanged; the two concrete format
examples evaluate as claimed. -/
theorem claim_C3_witness :
    record_entry 15 w3Bad = Option.none ∧
    pick_heatindex_record [w3Bad] [0] 15 = pick_heatindex_record [] [0] 15 ∧
    parse_api_dt "2024/01/01 10:00:00" = Option.none ∧
    (parse_api_dt "2024-01-01 10:00:00").isSome = true := by
  have h1 := claim_C3.1 15 w3Bad (by intro s; simp [w3Bad])
  refine ⟨h1, ?_, claim_C3.2.2.2.1, claim_C3.2.2.2.2⟩
  exact claim_C3.2.2.1 15 w3Bad [] [] [0] h1

/-- C4: a record with a parseable timestamp is discarded exactly when its
heat-index field does not coerce to a number; the temperature field is
carried as an optional value and its coercion failure or absence never
discards the record. -/
theorem claim_C4 (sm : Int) (r : Rec) (s : String) (dt : Int)
    (hf : r.fecha = PyVal.str s) (hp : parse_api_dt s = some dt) :
    (safe_float r.indice_calor = Option.none → record_entry sm r = Option.none)
  ∧ (∀ hi, safe_float r.indice_calor = some hi →
      record_entry sm r =
        some (floor_to_slot dt sm, (r, hi, safe_float r.temperatura, dt))) := by
  constructor
  · intro hh
    simp [record_entry, hf, hp, hh]
  · intro hi hh
    simp [record_entry, hf, hp, hh]

/-- Witness for C4: with a parseable timestamp, a missing heat-index discards
the record, while an uncoercible temperature string keeps it with
temperature `None`. -/
theorem claim_C4_witness :
    record_entry 15 w4NoHi = Option.none ∧
    record_entry 15 w4BadTemp =
      some (floor_to_slot (mkDateTime 2024 1 1 10 16 0) 15,
        (w4BadTemp, 12, Option.none, mkDateTime 2024 1 1 10 16 0)) := by
  constructor
  · exact (claim_C4 15 w4NoHi "2024-01-01 10:16:00" (mkDateTime 2024 1 1 10 16 0)
      (by decide) (by decide)).1 (by decide)
  · have h := (claim_C4 15 w4BadTemp "2024-01-01 10:16:00" (mkDateTime 2024 1 1 10 16 0)
      (by decide) (by decide)).2 12 (by decide)
    rw [h]
    have ht : safe_float w4BadTemp.temperatura = Option.none := by decide
    rw [ht]

/-- Closed form of the `build_slots` while-loop: for `mins ≤ max_age_min` it
produces `floor((max_age_min - mins)/slot_minutes) + 1` slots stepping back
`slot_minutes` minutes each. -/
theorem build_slots_loop_eq (base sm ma : Int) (hpos : 0 < sm) :
    ∀ (mins : Int),
      build_slots_loop base sm ma hpos mins =
        if mins ≤ ma then
          (List.range (((ma - mins).fdiv sm).toNat + 1)).map
            (fun (k : Nat) => base - (mins + (k : Int) * sm) * usPerMinute)
        else [] := by
  suffices H : ∀ (n : Nat) (mins : Int), (ma - mins).toNat = n →
      build_slots_loop base sm ma hpos mins =
        if mins ≤ ma then
          (List.range (((ma - mins).fdiv sm).toNat + 1)).map
            (fun (k : Nat) => base - (mins + (k : Int) * sm) * usPerMinute)
        else [] by
    intro mins
    exact H (ma - mins).toNat mins rfl
  intro n
  induction n using Nat.strong_induction_on with
  | _ n ih =>
    intro mins hn
    by_cases h : mins ≤ ma
    · rw [build_slots_loop, dif_pos h, if_pos h]
      by_cases h2 : mins + sm ≤ ma
      · have hrec := ih (ma - (mins + sm)).toNat (by omega) (mins + sm) rfl
        rw [hrec, if_pos h2]
        have hfd : (ma - mins).fdiv sm = (ma - (mins + sm)).fdiv sm + 1 := by
          have hsplit : ma - mins = (ma - (mins + sm)) + 1 * sm := by ring
          rw [hsplit, Int.fdiv_eq_ediv _ hpos.le, Int.fdiv_eq_ediv _ hpos.le,
            Int.add_mul_ediv_right _ _ (ne_of_gt hpos)]
        have hnn : 0 ≤ (ma - (mins + sm)).fdiv sm :=
          Int.fdiv_nonneg (by omega) hpos.le
        have htn : ((ma - mins).fdiv sm).toNat = ((ma - (mins + sm)).fdiv sm).toNat + 1 := by
          omega
        rw [htn]
        conv_rhs => rw [List.range_succ_eq_map, List.map_cons, List.map_map]
        congr 1
        · norm_num
        · refine List.map_congr_left ?_
          intro k _
          simp only [Function.comp_apply]
          push_cast
          ring
      · rw [build_slots_loop, dif_neg (by omega)]
        have hfd : (ma - mins).fdiv sm = 0 := by
          rw [Int.fdiv_eq_ediv _ hpos.le]
          exact Int.ediv_eq_zero_of_lt (by omega) (by omega)
        rw [hfd]
        simp [Int.toNat_zero, List.range_succ]
    · rw [build_slots_loop, dif_neg h, if_neg h]

/-- The minute field of any timestamp lies in `[0, 60)`. -/
theorem dtMinute_bounds (t : Int) : 0 ≤ dtMinute t ∧ dtMinute t < 60 :=
  ⟨Int.emod_nonneg _ (by norm_num), Int.emod_lt_of_pos _ (by norm_num)⟩

theorem emod_as_mod (a b : Int) : a.emod b = a % b := rfl

/-- Field view of a timestamp that is a whole number of hours plus `M`
minutes, `0 ≤ M ≤ 59`. -/
theorem hour_offset_fields (H M : Int) (hH : H % 3600000000 = 0)
    (h0 : 0 ≤ M) (h59 : M ≤ 59) :
    dtMinute (H + M * 60000000) = M ∧
    dtSecond (H + M * 60000000) = 0 ∧
    dtMicrosecond (H + M * 60000000) = 0 ∧
    startOfHour (H + M * 60000000) = H := by
  have e1 : ∀ a : Int, a.fdiv 60000000 = a / 60000000 :=
    fun a => Int.fdiv_eq_ediv a (by norm_num)
  have e2 : ∀ a : Int, a.fdiv 1000000 = a / 1000000 :=
    fun a => Int.fdiv_eq_ediv a (by norm_num)
  refine ⟨?_, ?_, ?_, ?_⟩
  · simp only [dtMinute, usPerMinute, e1, emod_as_mod]
    omega
  · simp only [dtSecond, usPerSecond, e2, emod_as_mod]
    omega
  · simp only [dtMicrosecond, usPerSecond, emod_as_mod]
    omega
  · simp only [startOfHour, usPerHour, emod_as_mod]
    omega

/-- `floor_to_slot` floors the minute to a multiple of `slot_minutes`, zeroes
seconds and microseconds, and keeps the year-through-hour fields. -/
theorem floor_to_slot_fields (now sm : Int) (hs : 0 < sm) :
    dtMinute (floor_to_slot now sm) = (dtMinute now).fdiv sm * sm ∧
    dtSecond (floor_to_slot now sm) = 0 ∧
    dtMicrosecond (floor_to_slot now sm) = 0 ∧
    startOfHour (floor_to_slot now sm) = startOfHour now := by
  obtain ⟨hm0, hm60⟩ := dtMinute_bounds now
  have hq0 : 0 ≤ (dtMinute now).fdiv sm := Int.fdiv_nonneg hm0 hs.le
  have hqle : (dtMinute now).fdiv sm * sm ≤ dtMinute now := by
    rw [Int.fdiv_eq_ediv _ hs.le]
    exact Int.ediv_mul_le _ (ne_of_gt hs)
  have h0 : 0 ≤ (dtMinute now).fdiv sm * sm := mul_nonneg hq0 hs.le
  have h59 : (dtMinute now).fdiv sm * sm ≤ 59 := by linarith
  have hH : startOfHour now % 3600000000 = 0 := by
    simp only [startOfHour, usPerHour, emod_as_mod]
    omega
  have hfl : floor_to_slot now sm =
      startOfHour now + ((dtMinute now).fdiv sm * sm) * 60000000 := rfl
  have h := hour_offset_fields (startOfHour now) ((dtMinute now).fdiv sm * sm) hH h0 h59
  rw [hfl]
  exact ⟨h.1, h.2.1, h.2.2.1, h.2.2.2⟩

/-- C5: for `slotMinutes > 0` and `maxAgeMinutes ≥ 0`, `build_slots` returns a
strictly time-decreasing list of length `floor(maxAge/slot)+1` whose k-th
element is the base slot minus `k*slotMinutes` minutes, the base slot being
`now` with minute floored to a multiple of `slotMinutes` and seconds and
microseconds zeroed (year..hour unchanged). -/
theorem claim_C5 (now sm ma : Int) (hs : 0 < sm) (hm : 0 ≤ ma) :
    (build_slots now sm ma hs).1 =
      (List.range ((ma.fdiv sm).toNat + 1)).map
        (fun (k : Nat) => floor_to_slot now sm - ((k : Int) * sm) * usPerMinute)
  ∧ (build_slots now sm ma hs).1.length = (ma.fdiv sm).toNat + 1
  ∧ List.Chain' (fun a b => b < a) (build_slots now sm ma hs).1
  ∧ (build_slots now sm ma hs).1.head? = some (floor_to_slot now sm)
  ∧ (build_slots now sm ma hs).2 = floor_to_slot now sm
  ∧ dtMinute (floor_to_slot now sm) = (dtMinute now).fdiv sm * sm
  ∧ dtSecond (floor_to_slot now sm) = 0
  ∧ dtMicrosecond (floor_to_slot now sm) = 0
  ∧ startOfHour (floor_to_slot now sm) = startOfHour now := by
  have hff := floor_to_slot_fields now sm hs
  have hlist : (build_slots now sm ma hs).1 =
      (List.range ((ma.fdiv sm).toNat + 1)).map
        (fun (k : Nat) => floor_to_slot now sm - ((k : Int) * sm) * usPerMinute) := by
    show build_slots_loop (floor_to_slot now sm) sm ma hs 0 = _
    rw [build_slots_loop_eq, if_pos hm]
    simp
  refine ⟨hlist, ?_, ?_, ?_, rfl, hff.1, hff.2.1, hff.2.2.1, hff.2.2.2⟩
  · rw [hlist]
    simp
  · rw [hlist, List.chain'_map, List.chain'_range_succ]
    intro k hk
    have husp : (0:Int) < usPerMinute := by norm_num [usPerMinute]
    have h1 : ((k:Int) * sm) * usPerMinute < (((k:Int) + 1) * sm) * usPerMinute := by
      have hks : (k:Int) * sm < ((k:Int) + 1) * sm := by
        have : (k:Int) < (k:Int) + 1 := by linarith
        exact mul_lt_mul_of_pos_right this hs
      exact mul_lt_mul_of_pos_right hks husp
    push_cast
    linarith
  · rw [hlist, List.range_succ_eq_map]
    simp

/-- Witness for C5: `now` = 2024-01-01 00:05:30, slot 15 min, max age 45 min:
4 slots, base slot at minute 0 with seconds zeroed, strictly decreasing. -/
theorem claim_C5_witness :
    (build_slots (mkDateTime 2024 1 1 0 5 30) 15 45 (by norm_num)).1.length = 4 ∧
    dtMinute (floor_to_slot (mkDateTime 2024 1 1 0 5 30) 15) = 0 ∧
    dtSecond (floor_to_slot (mkDateTime 2024 1 1 0 5 30) 15) = 0 ∧
    List.Chain' (fun a b => b < a)
      (build_slots (mkDateTime 2024 1 1 0 5 30) 15 45 (by norm_num)).1 := by
  have h := claim_C5 (mkDateTime 2024 1 1 0 5 30) 15 45 (by norm_num) (by norm_num)
  refine ⟨?_, ?_, h.2.2.2.2.2.2.1, h.2.2.1⟩
  · rw [h.2.1]
    decide
  · rw [h.2.2.2.2.2.1]
    decide

/-- C6: the age gate is evaluated first and short-circuits — whenever
`age_min > suppress_if_older_than_min`, the run is suppressed with no message
regardless of the heat-index value. -/
theorem claim_C6 (sta : Station) (r : Rec) (hi_val : ℚ) (t_val : Option ℚ)
    (dt_api slot_used : Int) (age_min sup th : ℚ) (h : age_min > sup) :
    main_post (RunResult.chosen sta r hi_val t_val dt_api slot_used age_min) sup th
      = (0, false) := by
  simp [main_post, h]

/-- Witness for C6: age 91 min against cutoff 90 min suppresses even with a
heat index of 1000 over a threshold of 10. -/
theorem claim_C6_witness :
    main_post (RunResult.chosen ⟨PyVal.none⟩ ⟨PyVal.none, PyVal.none, PyVal.none⟩
      1000 Option.none 0 0 91) 90 10 = (0, false) :=
  claim_C6 _ _ _ _ _ _ _ _ _ (by norm_num)

/-- C7: for a non-age-suppressed selection, a notification is sent exactly
when the heat index strictly exceeds the threshold (`<=` suppresses). -/
theorem claim_C7 (sta : Station) (r : Rec) (hi_val : ℚ) (t_val : Option ℚ)
    (dt_api slot_used : Int) (age_min sup th : ℚ) (h : ¬ age_min > sup) :
    main_post (RunResult.chosen sta r hi_val t_val dt_api slot_used age_min) sup th
      = (0, decide (th < hi_val)) := by
  by_cases hle : hi_val ≤ th
  · simp [main_post, h, hle, not_lt.mpr hle]
  · have hlt : th < hi_val := not_le.mp hle
    simp [main_post, h, hle, hlt]

/-- Witness for C7: heat index exactly equal to the threshold (10.0 vs 10.0)
with a fresh reading is suppressed. -/
theorem claim_C7_witness :
    main_post (RunResult.chosen ⟨PyVal.none⟩ ⟨PyVal.none, PyVal.none, PyVal.none⟩
      10 Option.none 0 0 5) 90 10 = (0, false) := by
  have h := claim_C7 ⟨PyVal.none⟩ ⟨PyVal.none, PyVal.none, PyVal.none⟩
    10 Option.none 0 0 5 90 10 (by norm_num)
  rw [h]
  norm_num

/-- Helper for C8: when no station in the list yields a selection, the loop
ends with no choice. -/
theorem try_station_loop_none (fetch : Station → List Rec) (slots : List Int)
    (sm now : Int) (l : List Station)
    (h : ∀ sta ∈ l, pick_heatindex_record (fetch sta) slots sm = Option.none) :
    try_station_loop fetch slots sm now l = RunResult.noChosen := by
  induction l with
  | nil => rfl
  | cons sta rest ih =>
    have hr := h sta (by simp)
    have ihr := ih (fun x hx => h x (by simp [hx]))
    by_cases ht : pyTruthy sta.estacionid
    · by_cases he : (fetch sta).isEmpty
      · simp [try_station_loop, ht, he, ihr]
      · simp [try_station_loop, ht, he, hr, ihr]
    · simp [try_station_loop, ht, ihr]

/-- C8: the orchestrator tries at most the first three stations in locator
order, stops at the first non-`none` selection, skips a station when its
records are empty or yield no selection, and when no tried station yields a
selection it ends with exit code 0 and no notification. -/
theorem claim_C8 :
    (∀ (es : List Station) (fetch : Station → List Rec) (slots : List Int) (sm now : Int),
        orchestrate es fetch slots sm now = orchestrate (es.take 3) fetch slots sm now)
  ∧ (∀ (sta : Station) (rest : List Station) (fetch : Station → List Rec)
        (slots : List Int) (sm now : Int) (r : Rec) (hi : ℚ) (t : Option ℚ) (dt slot : Int),
        pyTruthy sta.estacionid = true →
        fetch sta ≠ [] →
        pick_heatindex_record (fetch sta) slots sm = some (r, hi, t, dt, slot) →
        try_station_loop fetch slots sm now (sta :: rest) =
          RunResult.chosen sta r hi t dt slot (((now - dt : Int) : ℚ) / 60000000))
  ∧ (∀ (sta : Station) (rest : List Station) (fetch : Station → List Rec)
        (slots : List Int) (sm now : Int),
        fetch sta = [] ∨ pick_heatindex_record (fetch sta) slots sm = Option.none →
        try_station_loop fetch slots sm now (sta :: rest) =
          try_station_loop fetch slots sm now rest)
  ∧ (∀ (es : List Station) (fetch : Station → List Rec) (slots : List Int)
        (sm now : Int) (sup th : ℚ),
        (∀ sta ∈ es.take 3, pick_heatindex_record (fetch sta) slots sm = Option.none) →
        orchestrate es fetch slots sm now = RunResult.noChosen ∧
        main_post (orchestrate es fetch slots sm now) sup th = (0, false)) := by
  refine ⟨?_, ?_, ?_, ?_⟩
  · intro es fetch slots sm now
    simp [orchestrate, List.take_take]
  · intro sta rest fetch slots sm now r hi t dt slot ht hne hpick
    have he : (fetch sta).isEmpty = false := by
      simpa [List.isEmpty_iff] using hne
    simp [try_station_loop, ht, he, hpick]
  · intro sta rest fetch slots sm now h
    by_cases ht : pyTruthy sta.estacionid
    · rcases h with h | h
      · simp [try_station_loop, ht, h]
      · by_cases he : (fetch sta).isEmpty
        · simp [try_station_loop, ht, he]
        · simp [try_station_loop, ht, he, h]
    · simp [try_station_loop, ht]
  · intro es fetch slots sm now sup th h
    have hor : orchestrate es fetch slots sm now = RunResult.noChosen :=
      try_station_loop_none fetch slots sm now (es.take 3) h
    exact ⟨hor, by rw [hor]; rfl⟩

/-- Witness for C8: station 1 returns no records, station 2 yields a
selection, so the orchestrator chooses station 2; a single selection-free
station ends the run with `(0, false)`. -/
theorem claim_C8_witness :
    orchestrate [wSta1, wSta2] w8Fetch [w8Slot] 15 w8Now =
      RunResult.chosen wSta2 w8Rec 11 Option.none w8Dt w8Slot
        (((w8Now - w8Dt : Int) : ℚ) / 60000000) ∧
    main_post (orchestrate [wSta1] w8Fetch [w8Slot] 15 w8Now) 90 10 = (0, false) := by
  constructor
  · have h1 : orchestrate [wSta1, wSta2] w8Fetch [w8Slot] 15 w8Now
        = try_station_loop w8Fetch [w8Slot] 15 w8Now [wSta1, wSta2] := rfl
    rw [h1, claim_C8.2.2.1 wSta1 [wSta2] w8Fetch [w8Slot] 15 w8Now (Or.inl (by decide))]
    exact claim_C8.2.1 wSta2 [] w8Fetch [w8Slot] 15 w8Now w8Rec 11 Option.none w8Dt w8Slot
      (by decide) (by decide) (by decide)
  · refine (claim_C8.2.2.2 [wSta1] w8Fetch [w8Slot] 15 w8Now 90 10 ?_).2
    intro sta hsta
    have hs1 : sta = wSta1 := by simpa using hsta
    subst hs1
    decide

/-- C9: the response-shape handling of `get_station_records` is total and
yields: the list stored under the station-id key of a dict (empty when the
key is missing or its value is not a list), a flat list as-is, and `[]` for
any other top-level shape. -/
theorem claim_C9 (id : String) :
    (∀ (m : List (String × DVal)) (k : String) (rs : List Rec),
        List.find? (fun p => p.1 == id) m = some (k, DVal.list rs) →
        get_station_records (Resp.dict m) id = rs)
  ∧ (∀ (m : List (String × DVal)) (k : String),
        List.find? (fun p => p.1 == id) m = some (k, DVal.nonlist) →
        get_station_records (Resp.dict m) id = [])
  ∧ (∀ (m : List (String × DVal)),
        List.find? (fun p => p.1 == id) m = Option.none →
        get_station_records (Resp.dict m) id = [])
  ∧ (∀ (rs : List Rec), get_station_records (Resp.list rs) id = rs)
  ∧ get_station_records Resp.other id = [] := by
  refine ⟨?_, ?_, ?_, fun rs => rfl, rfl⟩
  · intro m k rs hf
    simp [get_station_records, hf]
  · intro m k hf
    simp [get_station_records, hf]
  · intro m hf
    simp [get_station_records, hf]

/-- Witness for C9: a concrete dict with one list entry and one non-list
entry, plus the flat-list and unexpected-shape cases. -/
theorem claim_C9_witness :
    get_station_records (Resp.dict [("1", DVal.list [w9Rec]), ("2", DVal.nonlist)]) "1"
        = [w9Rec] ∧
    get_station_records (Resp.dict [("1", DVal.list [w9Rec]), ("2", DVal.nonlist)]) "2"
        = [] ∧
    get_station_records (Resp.dict [("1", DVal.list [w9Rec]), ("2", DVal.nonlist)]) "3"
        = [] ∧
    get_station_records (Resp.list [w9Rec]) "7" = [w9Rec] ∧
    get_station_records Resp.other "7" = [] :=
  ⟨(claim_C9 "1").1 _ "1" [w9Rec] (by decide),
   (claim_C9 "2").2.1 _ "2" (by decide),
   (claim_C9 "3").2.2.1 _ (by decide),
   (claim_C9 "7").2.2.2.1 [w9Rec],
   (claim_C9 "7").2.2.2.2⟩

/-- Inversion of one selector-loop step: a kept record's stored entry records
the record itself, its parsed timestamp, that timestamp's slot, and the
coercions of its numeric fields. -/
theorem record_entry_inv (sm : Int) (r : Rec) (k : Int) (e : Entry)
    (h : record_entry sm r = some (k, e)) :
    e.1 = r ∧ k = floor_to_slot e.2.2.2 sm ∧
    safe_float r.indice_calor = some e.2.1 ∧
    e.2.2.1 = safe_float r.temperatura ∧
    ∃ s, r.fecha = PyVal.str s ∧ parse_api_dt s = some e.2.2.2 := by
  obtain ⟨e1, e2, e3, e4⟩ := e
  cases hf : r.fecha with
  | str s =>
    cases hp : parse_api_dt s with
    | none => simp [record_entry, hf, hp] at h
    | some dt =>
      cases hsf : safe_float r.indice_calor with
      | none => simp [record_entry, hf, hp, hsf] at h
      | some hi =>
        simp only [record_entry, hf, hp, hsf, Option.some.injEq, Prod.mk.injEq] at h
        obtain ⟨hk, he1, he2, he3, he4⟩ := h
        refine ⟨?_, ?_, ?_, ?_, s, ?_, ?_⟩ <;> simp_all
  | none => simp [record_entry, hf] at h
  | bool b => simp [record_entry, hf] at h
  | num q => simp [record_entry, hf] at h
  | other => simp [record_entry, hf] at h

/-- Every pair reachable in the `by_slot` dict comes from a record of the
input list via `record_entry`. -/
theorem build_by_slot_mem (sm : Int) (l : List Rec) :
    ∀ (acc : List (Int × Entry)), ∀ p ∈ List.foldl (by_slot_step sm) acc l,
      p ∈ acc ∨ (record_entry sm p.2.1 = some (p.1, p.2) ∧ p.2.1 ∈ l) := by
  induction l with
  | nil =>
    intro acc p hp
    exact Or.inl hp
  | cons r rest ih =>
    intro acc p hp
    rcases ih (by_slot_step sm acc r) p hp with h | h
    · unfold by_slot_step at h
      cases hre : record_entry sm r with
      | none =>
        rw [hre] at h
        exact Or.inl h
      | some q =>
        obtain ⟨k2, e2⟩ := q
        rw [hre] at h
        rcases List.mem_cons.mp h with h | h
        · right
          have hinv := record_entry_inv sm r k2 e2 hre
          subst h
          refine ⟨?_, ?_⟩
          · simp only []
            rw [hinv.1]
            exact hre
          · rw [hinv.1]
            exact List.mem_cons_self _ _
        · exact Or.inl h
    · exact Or.inr ⟨h.1, List.mem_cons_of_mem _ h.2⟩

/-- A successful dict lookup exhibits membership. -/
theorem dictGet_some_mem (m : List (Int × Entry)) (k : Int) (e : Entry)
    (h : dictGet m k = some e) : (k, e) ∈ m := by
  unfold dictGet at h
  cases hf : List.find? (fun p => p.1 == k) m with
  | none => rw [hf] at h; simp at h
  | some p =>
    rw [hf] at h
    have hmem := List.mem_of_find?_eq_some hf
    have hkey := List.find?_some hf
    obtain ⟨p1, p2⟩ := p
    simp only [beq_iff_eq] at hkey
    subst hkey
    have h2 : p2 = e := by
      simpa using h
    subst h2
    exact hmem

/-- A successful walk of the slot grid returns a grid slot and its entry. -/
theorem pick_loop_some_inv (m : List (Int × Entry)) (slots : List Int)
    (r : Rec) (hi : ℚ) (t : Option ℚ) (dt slot : Int)
    (h : pick_loop m slots = some (r, hi, t, dt, slot)) :
    slot ∈ slots ∧ dictGet m slot = some (r, hi, t, dt) := by
  induction slots with
  | nil => simp [pick_loop] at h
  | cons s rest ih =>
    simp only [pick_loop] at h
    cases hd : dictGet m s with
    | none =>
      rw [hd] at h
      obtain ⟨h1, h2⟩ := ih h
      exact ⟨List.mem_cons_of_mem _ h1, h2⟩
    | some q =>
      obtain ⟨r2, hi2, t2, dt2⟩ := q
      rw [hd] at h
      simp only [Option.some.injEq, Prod.mk.injEq] at h
      obtain ⟨hr, hhi, ht, hdt, hslot⟩ := h
      subst hr; subst hhi; subst ht; subst hdt; subst hslot
      exact ⟨List.mem_cons_self _ _, hd⟩

/-- C10: every non-`none` selection returns a slot that belongs to the
supplied grid and equals `floor_to_slot` of the returned parsed timestamp,
a record from the input whose timestamp string parses to that timestamp,
with the heat-index value being the numeric coercion of that record's
heat-index field (and the temperature its optional coercion). -/
theorem claim_C10 (records : List Rec) (slots : List Int) (sm : Int)
    (r : Rec) (hi : ℚ) (t : Option ℚ) (dt slot : Int)
    (h : pick_heatindex_record records slots sm = some (r, hi, t, dt, slot)) :
    slot ∈ slots ∧ slot = floor_to_slot dt sm ∧ r ∈ records ∧
    safe_float r.indice_calor = some hi ∧ t = safe_float r.temperatura ∧
    ∃ s, r.fecha = PyVal.str s ∧ parse_api_dt s = some dt := by
  obtain ⟨hmem, hget⟩ := pick_loop_some_inv _ _ _ _ _ _ _ h
  have hin := dictGet_some_mem _ _ _ hget
  rcases build_by_slot_mem sm records [] (slot, (r, hi, t, dt)) hin with h0 | ⟨hre, hrmem⟩
  · simp at h0
  · have hinv := record_entry_inv sm r slot (r, hi, t, dt) hre
    exact ⟨hmem, hinv.2.1, hrmem, hinv.2.2.1, hinv.2.2.2.1, hinv.2.2.2.2⟩

/-- Witness for C10: a concrete selection satisfies the invariant. -/
theorem claim_C10_witness :
    w10Slot ∈ [w10Slot] ∧ w10Slot = floor_to_slot w10Dt 15 ∧ w10Rec ∈ [w10Rec] ∧
    safe_float w10Rec.indice_calor = some 33 ∧
    (some 31 : Option ℚ) = safe_float w10Rec.temperatura ∧
    ∃ s, w10Rec.fecha = PyVal.str s ∧ parse_api_dt s = some w10Dt :=
  claim_C10 [w10Rec] [w10Slot] 15 w10Rec 33 (some 31) w10Dt w10Slot (by decide)
